import Mathlib

/-!
Verification of the GitHub command-line assistant's core logic, shallowly
embedded from `github_assistant/core/github_client.py` (the rate-limit retry
wrapper `GitHubClient._handle_rate_limit` and the hosting-API operations
around it) and `github_assistant/core/ai_agent.py` (diff truncation and
best-effort JSON extraction from model responses).
-/

set_option maxRecDepth 65536

namespace GithubAssistant

/-- ASCII whitespace, as matched by Python's regex whitespace class and as
skipped by `json.loads` (all inputs in this development are ASCII). -/
def isSpaceChar (c : Char) : Bool :=
  c == ' ' || c == '\t' || c == '\n' || c == '\r' || c == '\x0b' || c == '\x0c'

/-- `listStartsWith hay needle` : `needle` is a prefix of `hay`. -/
def listStartsWith : List Char → List Char → Bool
  | _, [] => true
  | [], _ :: _ => false
  | h :: hs, n :: ns => h == n && listStartsWith hs ns

/-- `listContainsSub hay needle` : `needle` occurs as a contiguous substring
of `hay` (Python's `needle in hay`). -/
def listContainsSub : List Char → List Char → Bool
  | [], needle => needle.isEmpty
  | h :: hs, needle => listStartsWith (h :: hs) needle || listContainsSub hs needle

/-- Python `needle in hay` on strings. -/
def strContainsSub (hay needle : String) : Bool :=
  listContainsSub hay.data needle.data

/-- Python `str.lower()`, character by character (ASCII case folding, which
suffices for the inputs here). -/
def pyLower (s : String) : String :=
  ⟨s.data.map Char.toLower⟩

/-- Outcome of one invocation of a hosting-API callable, following the
exception classes `github_client.py` distinguishes: a successful return, a
`RateLimitExceededException` (with its message), any other `GithubException`
(with its `status` and its message text `str(e)`), or an exception that is
not a `GithubException` at all. -/
inductive Outcome (α : Type) where
  | ok (v : α)
  | rateLimitExceeded (msg : String)
  | githubExc (status : Int) (msg : String)
  | otherExc (msg : String)
deriving DecidableEq, Repr

/-- The exception (if any) that an operation run lets escape to the caller. -/
inductive PyError where
  | rateLimitExceeded (msg : String)
  | githubExc (status : Int) (msg : String)
  | otherExc (msg : String)
deriving DecidableEq, Repr

deriving instance DecidableEq for Except

/-- Observable trace of running an operation: how many times the underlying
callable was invoked, the durations (in seconds) passed to `time.sleep` in
order, and the final result (a value or the escaping exception). -/
structure RunResult (α : Type) where
  calls : Nat
  sleeps : List Int
  result : Except PyError α
deriving DecidableEq, Repr

/-- `max_retries = 3` from `GitHubClient._handle_rate_limit`. -/
def max_retries : Nat := 3

/-- `retry_delay = 60` (seconds) from `GitHubClient._handle_rate_limit`. -/
def retry_delay : Int := 60

/-- The retry classification of a generic `GithubException` in
`_handle_rate_limit`: `e.status == 403 and 'rate limit' in str(e).lower()`. -/
def retryableGithub (status : Int) (msg : String) : Bool :=
  status == 403 && strContainsSub (pyLower msg) "rate limit"

/-- The exception an `Outcome` carries, as re-raised by a bare `raise`. -/
def Outcome.toError : Outcome α → Except PyError α
  | .ok v => .ok v
  | .rateLimitExceeded m => .error (.rateLimitExceeded m)
  | .githubExc s m => .error (.githubExc s m)
  | .otherExc m => .error (.otherExc m)

/-- A failure outcome that `_handle_rate_limit` treats as retryable: the
explicit `RateLimitExceededException`, or a `GithubException` passing the
403-and-substring test. -/
def Outcome.retryable : Outcome α → Bool
  | .rateLimitExceeded _ => true
  | .githubExc s m => retryableGithub s m
  | _ => false

/-- The loop of `GitHubClient._handle_rate_limit` from iteration `attempt`
onward (`for attempt in range(max_retries)`).

`func k` is the outcome of the `k`-th invocation of the wrapped callable;
`resetMinusNow k` is the value of `reset_time - time.time()` (in seconds)
observed if the wrapper queries `self.client.get_rate_limit()` after the
`k`-th invocation; `sleeps` accumulates the durations passed to `time.sleep`
so far.  The source performs no flooring on the computed wait before handing
it to `time.sleep`. -/
def handleRateLimitFrom (func : Nat → Outcome α) (resetMinusNow : Nat → Int)
    (attempt : Nat) (sleeps : List Int) : RunResult α :=
  match func attempt with
  | .ok v => ⟨attempt + 1, sleeps, .ok v⟩
  | .rateLimitExceeded m =>
    if _h : attempt < max_retries - 1 then
      let wait_time : Int := resetMinusNow attempt + 5
      handleRateLimitFrom func resetMinusNow (attempt + 1)
        (sleeps ++ [min wait_time retry_delay])
    else
      ⟨attempt + 1, sleeps, .error (.rateLimitExceeded m)⟩
  | .githubExc s m =>
    if retryableGithub s m then
      if _h : attempt < max_retries - 1 then
        handleRateLimitFrom func resetMinusNow (attempt + 1) (sleeps ++ [retry_delay])
      else
        ⟨attempt + 1, sleeps, .error (.githubExc s m)⟩
    else
      ⟨attempt + 1, sleeps, .error (.githubExc s m)⟩
  | .otherExc m => ⟨attempt + 1, sleeps, .error (.otherExc m)⟩
termination_by max_retries - attempt
decreasing_by
  all_goals simp only [max_retries] at *
  all_goals omega

/-- `GitHubClient._handle_rate_limit(func, ...)`: run the loop from
`attempt = 0` with no sleeps performed yet. -/
def handle_rate_limit (func : Nat → Outcome α) (resetMinusNow : Nat → Int) :
    RunResult α :=
  handleRateLimitFrom func resetMinusNow 0 []

/-- Embeds `GitHubClient.create_pull_request` (github_client.py, lines
149-170).  `getRepo` is the outcome of the repository lookup performed by
`get_repository` (a `GithubException` there is caught and re-raised as a
generic `Exception("Repository not found: ...")`); `createPull k` is the
outcome the underlying `repo.create_pull` call would produce on its `k`-th
invocation.  The `calls` field records how many invocations of
`repo.create_pull` happen and `sleeps` the durations passed to `time.sleep`
during the method (the source performs none: the method never goes through
`_handle_rate_limit`).  A `GithubException` raised by `repo.create_pull` —
`RateLimitExceededException` is a subclass and is caught too — is re-raised
as a generic `Exception("Failed to create PR: ...")` carrying the
exception's message (`e.data.get('message', str(e))`, modelled by `msg`). -/
def create_pull_request {ρ π : Type} (repoName : String) (getRepo : Outcome ρ)
    (createPull : Nat → Outcome π) : RunResult π :=
  match getRepo with
  | .ok _ =>
    match createPull 0 with
    | .ok pr => ⟨1, [], .ok pr⟩
    | .rateLimitExceeded m => ⟨1, [], .error (.otherExc ("Failed to create PR: " ++ m))⟩
    | .githubExc _ m => ⟨1, [], .error (.otherExc ("Failed to create PR: " ++ m))⟩
    | .otherExc m => ⟨1, [], .error (.otherExc m)⟩
  | .rateLimitExceeded _ => ⟨0, [], .error (.otherExc ("Repository not found: " ++ repoName))⟩
  | .githubExc _ _ => ⟨0, [], .error (.otherExc ("Repository not found: " ++ repoName))⟩
  | .otherExc m => ⟨0, [], .error (.otherExc m)⟩

/-- `AIAgent.MAX_DIFF_SIZE`. -/
def MAX_DIFF_SIZE : Nat := 50000

/-- `AIAgent.MAX_PR_DIFF_SIZE`. -/
def MAX_PR_DIFF_SIZE : Nat := 100000

/-- The fixed notice `AIAgent._truncate_diff` appends after cutting a diff. -/
def truncationNotice : String :=
  "\n\n... (diff truncated to prevent excessive API costs)"

/-- Python `s[:n]`: the first `n` characters (code points) of `s`. -/
def pyTake (s : String) (n : Nat) : String :=
  ⟨s.data.take n⟩

/-- `AIAgent._truncate_diff(diff, max_size)`: the diff unchanged with flag
`false` when it fits, else its first `max_size` characters followed by the
truncation notice, with flag `true`. -/
def truncate_diff (diff : String) (maxSize : Nat) : String × Bool :=
  if diff.length ≤ maxSize then (diff, false)
  else (pyTake diff maxSize ++ truncationNotice, true)

/-- The truncation step of `AIAgent.generate_commit_message`. -/
def generate_commit_message_truncation (diff : String) : String × Bool :=
  truncate_diff diff MAX_DIFF_SIZE

/-- The truncation step of `AIAgent.review_code_changes`. -/
def review_code_changes_truncation (diff : String) : String × Bool :=
  truncate_diff diff MAX_DIFF_SIZE

/-- The truncation step of `AIAgent.explain_diff`. -/
def explain_diff_truncation (diff : String) : String × Bool :=
  truncate_diff diff MAX_DIFF_SIZE

/-- The truncation step of `AIAgent.review_pull_request`. -/
def review_pull_request_truncation (diff : String) : String × Bool :=
  truncate_diff diff MAX_PR_DIFF_SIZE

/-- The truncation step of `AIAgent.generate_pr_description`. -/
def generate_pr_description_truncation (diff : String) : String × Bool :=
  truncate_diff diff MAX_PR_DIFF_SIZE

/-- JSON values, as far as this repository's parsing layer observes them. -/
inductive Json where
  | str (s : String)
  | arr (elems : List Json)
  | obj (fields : List (String × Json))

/-- Whether a parsed value is an object carrying the given key. -/
def Json.hasKey : Json → String → Bool
  | .obj fields, k => fields.any (fun p => p.1 == k)
  | _, _ => false

/-- The value stored under a key of an object, if any. -/
def Json.getKey : Json → String → Option Json
  | .obj fields, k => (fields.find? (fun p => p.1 == k)).map Prod.snd
  | _, _ => none

/-- Python `str.find(char)`: index of the first occurrence, `-1` if absent. -/
def listFindIdx : List Char → Char → Int
  | [], _ => -1
  | h :: t, c =>
    if h == c then 0
    else
      let r := listFindIdx t c
      if r < 0 then -1 else r + 1

/-- Python `str.rfind(char)`: index of the last occurrence, `-1` if absent. -/
def listRfindIdx : List Char → Char → Int
  | [], _ => -1
  | h :: t, c =>
    let r := listRfindIdx t c
    if 0 ≤ r then r + 1 else if h == c then 0 else -1

/-- Python `review_text.find(c)`. -/
def pyFind (s : String) (c : Char) : Int := listFindIdx s.data c

/-- Python `review_text.rfind(c)`. -/
def pyRfind (s : String) (c : Char) : Int := listRfindIdx s.data c

/-- Python slice `s[a:b]`; agrees with Python whenever `0 ≤ a ≤ b ≤ len s`,
which the guards in the source establish before every use. -/
def pySlice (s : String) (a b : Int) : String :=
  ⟨(s.data.drop a.toNat).take (b.toNat - a.toNat)⟩

/-- The backtick character (code point 96). -/
def backtickChar : Char := Char.ofNat 96

/-- A three-backtick code fence. -/
def fenceChars : List Char := [backtickChar, backtickChar, backtickChar]

/-- After a candidate closing brace, the regex requires optional whitespace
and then a closing fence (backtracking over the greedy whitespace run cannot
produce any other acceptance point, since a backtick is not whitespace). -/
def afterCloseOk (rest : List Char) : Bool :=
  listStartsWith (rest.dropWhile isSpaceChar) fenceChars

/-- The lazy part of the fenced-block regex of `AIAgent.review_code_changes`:
having consumed the opening brace, extend the group one character at a time
and close it at the first closing brace whose tail satisfies `afterCloseOk`
(the semantics of a lazy quantifier under leftmost-match search). -/
def lazyGroupBody (acc : List Char) : List Char → Option (List Char)
  | [] => none
  | c :: cs =>
    if c == '\x7d' && afterCloseOk cs then some (acc.reverse ++ ['\x7d'])
    else lazyGroupBody (c :: acc) cs

/-- A match of the fenced-block pattern anchored at the start of `cs`: an
opening fence, an optional literal `json`, optional whitespace, then the
lazily-matched brace group followed by optional whitespace and a closing
fence.  (When `json` follows the fence the variant that skips it always
fails — the next required character would be a brace or whitespace but is
the letter j — so trying the `json` branch alone is faithful.) -/
def matchFencedAt (cs : List Char) : Option (List Char) :=
  if listStartsWith cs fenceChars then
    let cs0 := cs.drop 3
    let cs1 := if listStartsWith cs0 "json".data then cs0.drop 4 else cs0
    match cs1.dropWhile isSpaceChar with
    | c :: rest =>
      if c == '\x7b' then (lazyGroupBody [] rest).map (fun body => '\x7b' :: body)
      else none
    | [] => none
  else none

/-- `re.search` of the fenced-block pattern: the match anchored at the
leftmost position where one exists. -/
def searchFenced : List Char → Option (List Char)
  | [] => none
  | c :: cs =>
    match matchFencedAt (c :: cs) with
    | some g => some g
    | none => searchFenced cs

/-- Group 1 of `re.search(r'...fenced json object...', review_text, re.DOTALL)`
in `AIAgent.review_code_changes`. -/
def findFencedJson (s : String) : Option String :=
  (searchFenced s.data).map (fun l => ⟨l⟩)

/-- The candidate string extracted by the fenced-code-block step of
`AIAgent.review_code_changes`. -/
def fencedCandidate (text : String) : Option String := findFencedJson text

/-- The candidate string extracted by the brace-substring fallback used by
both `AIAgent.review_code_changes` and `AIAgent.review_pull_request`:
`start = text.find(brace)`, `end = text.rfind(closing brace) + 1`, and the
slice `text[start:end]` provided `start >= 0 and end > start`. -/
def braceCandidate (text : String) : Option String :=
  let start := pyFind text '\x7b'
  let stop := pyRfind text '\x7d' + 1
  if 0 ≤ start ∧ start < stop then some (pySlice text start stop) else none

/-- The dictionary `AIAgent.review_code_changes` returns when no JSON is
found in the response. -/
def reviewDefaultObj (reviewText : String) : Json :=
  .obj [("summary", .str reviewText), ("issues", .arr []), ("suggestions", .arr []),
        ("security_concerns", .arr []), ("rating", .str "N/A"),
        ("recommendation", .str "comment")]

/-- The dictionary `AIAgent.review_code_changes` returns from its exception
handler when parsing raised. -/
def reviewErrorObj (reviewText errMsg : String) : Json :=
  .obj [("summary", .str reviewText), ("issues", .arr []), ("suggestions", .arr []),
        ("security_concerns", .arr []), ("rating", .str "N/A"),
        ("recommendation", .str "comment"), ("error", .str errMsg)]

/-- The dictionary `AIAgent.review_pull_request` returns when no brace
substring exists in the response. -/
def prDefaultObj (reviewText : String) : Json :=
  .obj [("review_comment", .str reviewText), ("recommendation", .str "comment")]

/-- The dictionary `AIAgent.review_pull_request` returns from its exception
handler when parsing raised. -/
def prErrorObj (reviewText errMsg : String) : Json :=
  .obj [("review_comment", .str reviewText), ("recommendation", .str "comment"),
        ("error", .str errMsg)]

/-- The response-parsing stage of `AIAgent.review_code_changes` (ai_agent.py,
lines 111-149), parameterised by `loads`, the behaviour of `json.loads` (a
raised `JSONDecodeError` is the `.error` case; the whole stage sits in one
`try` whose handler returns `reviewErrorObj`): first the fenced-block regex,
then — only when the regex found nothing — the brace-substring fallback,
then the no-JSON default dictionary. -/
def review_code_changes_parse (loads : String → Except String Json)
    (reviewText : String) : Json :=
  match fencedCandidate reviewText with
  | some c =>
    match loads c with
    | .ok d => d
    | .error e => reviewErrorObj reviewText e
  | none =>
    match braceCandidate reviewText with
    | some c =>
      match loads c with
      | .ok d => d
      | .error e => reviewErrorObj reviewText e
    | none => reviewDefaultObj reviewText

/-- The response-parsing stage of `AIAgent.review_pull_request` (ai_agent.py,
lines 201-215): only the brace-substring fallback and the raw-text default —
the source of this method contains no fenced-block search. -/
def review_pull_request_parse (loads : String → Except String Json)
    (reviewText : String) : Json :=
  match braceCandidate reviewText with
  | some c =>
    match loads c with
    | .ok d => d
    | .error e => prErrorObj reviewText e
  | none => prDefaultObj reviewText

/-- Body of a JSON string literal up to its closing quote (escape sequences
are outside the modelled fragment and rejected). -/
def parseStringBody (acc : List Char) : List Char → Option (String × List Char)
  | [] => none
  | c :: rest =>
    if c == '"' then some (⟨acc.reverse⟩, rest)
    else if c == '\\' then none
    else parseStringBody (c :: acc) rest

/-- A JSON string literal: an opening quote then its body. -/
def parseStringLit : List Char → Option (String × List Char)
  | c :: rest => if c == '"' then parseStringBody [] rest else none
  | [] => none

/-- One `"key": "value"` member of a JSON object. -/
def parseKV (cs : List Char) : Option ((String × Json) × List Char) :=
  match parseStringLit (cs.dropWhile isSpaceChar) with
  | none => none
  | some (k, rest) =>
    match rest.dropWhile isSpaceChar with
    | c :: rest2 =>
      if c == ':' then
        match parseStringLit (rest2.dropWhile isSpaceChar) with
        | some (v, rest3) => some ((k, .str v), rest3)
        | none => none
      else none
    | [] => none

/-- Comma-separated members of a JSON object up to its closing brace. -/
def parsePairsLoop : Nat → List Char → Option (List (String × Json) × List Char)
  | 0, _ => none
  | Nat.succ fuel, cs =>
    match parseKV cs with
    | none => none
    | some (kv, rest) =>
      match rest.dropWhile isSpaceChar with
      | c :: rest2 =>
        if c == ',' then
          match parsePairsLoop fuel rest2 with
          | some (kvs, r) => some (kv :: kvs, r)
          | none => none
        else if c == '\x7d' then some ([kv], rest2)
        else none
      | [] => none

/-- Model of Python `json.loads` restricted to flat objects with string keys
and escape-free string values.  Inputs outside this fragment are rejected;
every concrete string this file feeds to it either lies in the fragment
(where the model agrees with `json.loads`) or is malformed JSON that
`json.loads` rejects as well. -/
def jsonLoadsModel (s : String) : Except String Json :=
  match s.data.dropWhile isSpaceChar with
  | c :: rest =>
    if c == '\x7b' then
      match rest.dropWhile isSpaceChar with
      | d :: rest2 =>
        if d == '\x7d' then
          if (rest2.dropWhile isSpaceChar).isEmpty then .ok (.obj [])
          else .error "Extra data"
        else
          match parsePairsLoop (rest.length + 1) (rest.dropWhile isSpaceChar) with
          | some (kvs, r) =>
            if (r.dropWhile isSpaceChar).isEmpty then .ok (.obj kvs)
            else .error "Extra data"
          | none => .error "Expecting value"
      | [] => .error "Expecting value"
    else .error "Expecting value"
  | [] => .error "Expecting value"

theorem retryable_shape (o : Outcome α) (h : o.retryable = true) :
    (∃ m, o = .rateLimitExceeded m) ∨
      ∃ s m, o = .githubExc s m ∧ retryableGithub s m = true := by
  cases o with
  | ok v => simp [Outcome.retryable] at h
  | rateLimitExceeded m => exact Or.inl ⟨m, rfl⟩
  | githubExc s m => exact Or.inr ⟨s, m, rfl, h⟩
  | otherExc m => simp [Outcome.retryable] at h

theorem handle_rate_limit_all_retryable (func : Nat → Outcome α) (rmn : Nat → Int)
    (h : ∀ k, k < max_retries → (func k).retryable = true) :
    (handle_rate_limit func rmn).calls = 3 ∧
    (handle_rate_limit func rmn).sleeps.length = 2 ∧
    (handle_rate_limit func rmn).result = (func 2).toError := by
  have h0 := retryable_shape _ (h 0 (by simp [max_retries]))
  have h1 := retryable_shape _ (h 1 (by simp [max_retries]))
  have h2 := retryable_shape _ (h 2 (by simp [max_retries]))
  rcases h0 with ⟨m0, e0⟩ | ⟨s0, m0, e0, r0⟩ <;>
    rcases h1 with ⟨m1, e1⟩ | ⟨s1, m1, e1, r1⟩ <;>
      rcases h2 with ⟨m2, e2⟩ | ⟨s2, m2, e2, r2⟩ <;>
        simp [handle_rate_limit, handleRateLimitFrom, max_retries, Outcome.toError, *]

/-- C1: the operations of `GitHubClient` are NOT executed through the retry
wrapper: `_handle_rate_limit` is defined but never called.  At the claim's
failing input — `create_pull_request` on an existing repository whose
underlying `repo.create_pull` raises `RateLimitExceededException` on every
attempt — the method invokes the operation exactly once, performs no sleep,
and lets the failure escape (converted to a generic exception) on its first
occurrence, whereas the same operation run through `_handle_rate_limit`
would have been attempted 3 times. -/
theorem create_pull_request_not_wrapped {ρ π : Type} (repoName : String) (repo : ρ)
    (createPull : Nat → Outcome π) (m : String) (rmn : Nat → Int)
    (h : ∀ k, createPull k = .rateLimitExceeded m) :
    create_pull_request repoName (.ok repo) createPull =
      ⟨1, [], .error (.otherExc ("Failed to create PR: " ++ m))⟩ ∧
    (handle_rate_limit createPull rmn).calls = 3 := by
  constructor
  · simp [create_pull_request, h 0]
  · exact (handle_rate_limit_all_retryable createPull rmn
      (fun k _ => by simp [h k, Outcome.retryable])).1

theorem create_pull_request_not_wrapped_witness :
    create_pull_request "octo/repo" (Outcome.ok (0 : Nat))
        (fun _ => Outcome.rateLimitExceeded (α := Nat) "API rate limit exceeded") =
      ⟨1, [], .error (.otherExc "Failed to create PR: API rate limit exceeded")⟩ ∧
    (handle_rate_limit
        (fun _ => Outcome.rateLimitExceeded (α := Nat) "API rate limit exceeded")
        (fun _ => 10)).calls = 3 :=
  create_pull_request_not_wrapped "octo/repo" 0 _ "API rate limit exceeded"
    (fun _ => 10) (fun _ => rfl)

/-- C2: an operation that raises a retryable rate-limit failure on every
attempt is called exactly 3 times, with exactly 2 sleeps (between attempts
1→2 and 2→3, none after the 3rd), and the wrapper re-raises the original
(3rd-attempt) exception. -/
theorem retry_exhausts_after_three_attempts (func : Nat → Outcome α)
    (rmn : Nat → Int) (h : ∀ k, k < max_retries → (func k).retryable = true) :
    (handle_rate_limit func rmn).calls = 3 ∧
    (handle_rate_limit func rmn).sleeps.length = 2 ∧
    (handle_rate_limit func rmn).result = (func 2).toError :=
  handle_rate_limit_all_retryable func rmn h

theorem retry_exhausts_after_three_attempts_witness :
    (handle_rate_limit (fun _ => Outcome.rateLimitExceeded (α := Nat) "rl")
        (fun _ => 10)).calls = 3 ∧
    (handle_rate_limit (fun _ => Outcome.rateLimitExceeded (α := Nat) "rl")
        (fun _ => 10)).sleeps.length = 2 ∧
    (handle_rate_limit (fun _ => Outcome.rateLimitExceeded (α := Nat) "rl")
        (fun _ => 10)).result = .error (.rateLimitExceeded "rl") :=
  retry_exhausts_after_three_attempts _ _ (fun _ _ => rfl)

/-- C3: an operation whose first failure is not a retryable rate-limit
condition is called exactly once, no sleep happens, and the failure
propagates as raised. -/
theorem non_retryable_propagates_immediately (func : Nat → Outcome α)
    (rmn : Nat → Int) (hfail : ∀ v, func 0 ≠ .ok v)
    (h : (func 0).retryable = false) :
    handle_rate_limit func rmn = ⟨1, [], (func 0).toError⟩ := by
  cases hf : func 0 with
  | ok v => exact absurd hf (hfail v)
  | rateLimitExceeded m => rw [hf] at h; simp [Outcome.retryable] at h
  | githubExc s m =>
    rw [hf] at h
    simp only [Outcome.retryable] at h
    simp [handle_rate_limit, handleRateLimitFrom, hf, h, Outcome.toError]
  | otherExc m =>
    simp [handle_rate_limit, handleRateLimitFrom, hf, Outcome.toError]

theorem non_retryable_propagates_immediately_witness :
    handle_rate_limit (fun _ => Outcome.githubExc (α := Nat) 403 "Forbidden: insufficient scope")
        (fun _ => 10) =
      ⟨1, [], .error (.githubExc 403 "Forbidden: insufficient scope")⟩ :=
  non_retryable_propagates_immediately _ _ (fun v hv => by cases hv) (by decide)

/-- C4: on the explicit rate-limit path the wrapper queries the remote reset
timestamp and sleeps `min((reset_time - now) + 5, 60)` seconds before each
retry; with the operation failing on attempts 1 and 2 and succeeding on
attempt 3 the sleeps are exactly those two computed values and the result is
the attempt-3 value (witnessed at reset−now = 10 then 2, sleeping 15 then 7). -/
theorem explicit_rate_limit_wait_uses_reset (func : Nat → Outcome α)
    (rmn : Nat → Int) (m0 m1 : String) (v : α)
    (h0 : func 0 = .rateLimitExceeded m0) (h1 : func 1 = .rateLimitExceeded m1)
    (h2 : func 2 = .ok v) :
    handle_rate_limit func rmn =
      ⟨3, [min (rmn 0 + 5) 60, min (rmn 1 + 5) 60], .ok v⟩ := by
  simp [handle_rate_limit, handleRateLimitFrom, h0, h1, h2, max_retries, retry_delay]

theorem explicit_rate_limit_wait_uses_reset_witness :
    handle_rate_limit
        (fun k => if k = 0 then Outcome.rateLimitExceeded (α := Nat) "r1"
                  else if k = 1 then Outcome.rateLimitExceeded "r2" else .ok 42)
        (fun k => if k = 0 then (10 : Int) else 2) =
      ⟨3, [15, 7], .ok 42⟩ :=
  explicit_rate_limit_wait_uses_reset _ _ "r1" "r2" 42 rfl rfl rfl

/-- C5: a generic `GithubException` is retried exactly when its status is 403
and its lowered message text contains "rate limit"; when it is, the wrapper
sleeps a fixed 60 seconds (independently of the rate-limit window query,
since `rmn` is arbitrary here) before the next attempt; otherwise it fails
on attempt 1 with no sleep. -/
theorem generic_403_rate_limit_substring_retry (func : Nat → Outcome α)
    (rmn : Nat → Int) (s : Int) (m : String) (v : α)
    (h0 : func 0 = .githubExc s m) (h1 : func 1 = .ok v) :
    (s = 403 ∧ strContainsSub (pyLower m) "rate limit" = true →
      handle_rate_limit func rmn = ⟨2, [60], .ok v⟩) ∧
    (¬(s = 403 ∧ strContainsSub (pyLower m) "rate limit" = true) →
      handle_rate_limit func rmn = ⟨1, [], .error (.githubExc s m)⟩) := by
  constructor
  · rintro ⟨hs, hm⟩
    subst hs
    simp [handle_rate_limit, handleRateLimitFrom, h0, h1, retryableGithub, hm,
      max_retries, retry_delay]
  · intro hn
    have hr : retryableGithub s m = false := by
      simp only [retryableGithub, Bool.and_eq_false_iff]
      by_cases hs : s = 403
      · right
        subst hs
        rcases Bool.eq_false_or_eq_true (strContainsSub (pyLower m) "rate limit") with ht | hf
        · exact absurd ⟨rfl, ht⟩ hn
        · exact hf
      · left; simpa using hs
    simp [handle_rate_limit, handleRateLimitFrom, h0, hr]

theorem generic_403_rate_limit_substring_retry_witness :
    strContainsSub (pyLower "API rate limit exceeded for user") "rate limit" = true ∧
    handle_rate_limit
        (fun k => if k = 0 then Outcome.githubExc (α := Nat) 403 "API rate limit exceeded for user"
                  else .ok 5)
        (fun _ => 999) =
      ⟨2, [60], .ok 5⟩ :=
  ⟨by decide,
    (generic_403_rate_limit_substring_retry _ _ 403 "API rate limit exceeded for user" 5
      rfl rfl).1 ⟨rfl, by decide⟩⟩

/-- C6: an operation that succeeds on attempt k ≤ 3 (after retryable
failures on the earlier attempts) has its result returned unchanged, and no
further attempt is made (`calls = k + 1` with 0-based `k`). -/
theorem success_returns_result_unchanged (func : Nat → Outcome α)
    (rmn : Nat → Int) (k : Nat) (v : α) (hk : k < max_retries)
    (hpre : ∀ j, j < k → (func j).retryable = true) (hv : func k = .ok v) :
    (handle_rate_limit func rmn).result = .ok v ∧
    (handle_rate_limit func rmn).calls = k + 1 := by
  simp only [max_retries] at hk
  interval_cases k
  · simp [handle_rate_limit, handleRateLimitFrom, hv]
  · have h0 := retryable_shape _ (hpre 0 (by omega))
    rcases h0 with ⟨m0, e0⟩ | ⟨s0, m0, e0, r0⟩ <;>
      simp [handle_rate_limit, handleRateLimitFrom, max_retries, retry_delay, hv, *]
  · have h0 := retryable_shape _ (hpre 0 (by omega))
    have h1 := retryable_shape _ (hpre 1 (by omega))
    rcases h0 with ⟨m0, e0⟩ | ⟨s0, m0, e0, r0⟩ <;>
      rcases h1 with ⟨m1, e1⟩ | ⟨s1, m1, e1, r1⟩ <;>
        simp [handle_rate_limit, handleRateLimitFrom, max_retries, retry_delay, hv, *]

theorem success_returns_result_unchanged_witness :
    (handle_rate_limit
        (fun k => if k = 0 then Outcome.rateLimitExceeded (α := Nat) "rl" else .ok 9)
        (fun _ => 10)).result = .ok 9 ∧
    (handle_rate_limit
        (fun k => if k = 0 then Outcome.rateLimitExceeded (α := Nat) "rl" else .ok 9)
        (fun _ => 10)).calls = 2 :=
  success_returns_result_unchanged _ _ 1 9 (by simp [max_retries])
    (fun j hj => by
      have hj0 : j = 0 := by omega
      subst hj0; rfl) rfl

/-- C7 (counterexample): with the reset 10 seconds in the past
(`reset − now = −10`) the wrapper's performed sleep is the unfloored
`min(−10 + 5, 60) = −5`, which is negative — not the claimed effective
`max(computed_wait, 0) = 0`. -/
theorem negative_wait_counterexample :
    (handle_rate_limit
        (fun k => if k = 0 then Outcome.rateLimitExceeded (α := Nat) "rl" else .ok 7)
        (fun _ => -10)).sleeps = [-5] ∧
    ((-5 : Int) < 0 ∧ max (-5 : Int) 0 = 0) := by
  constructor
  · simp [handle_rate_limit, handleRateLimitFrom, max_retries, retry_delay]
  · constructor
    · omega
    · rfl

/-- C7 (amended): when the explicit rate-limit path computes a wait, the
wrapper passes `min((reset − now) + 5, 60)` to `time.sleep` with no floor at
zero, and proceeds to the next attempt; when the reset lies more than 5
seconds in the past this passed duration is negative. -/
theorem negative_wait_passed_unfloored (func : Nat → Outcome α)
    (rmn : Nat → Int) (m : String) (v : α)
    (h0 : func 0 = .rateLimitExceeded m) (h1 : func 1 = .ok v) :
    handle_rate_limit func rmn = ⟨2, [min (rmn 0 + 5) 60], .ok v⟩ ∧
    (rmn 0 < -5 → min (rmn 0 + 5) 60 < 0) := by
  constructor
  · simp [handle_rate_limit, handleRateLimitFrom, h0, h1, max_retries, retry_delay]
  · intro hneg
    have hlt : rmn 0 + 5 < 0 := by omega
    calc min (rmn 0 + 5) 60 ≤ rmn 0 + 5 := min_le_left _ _
    _ < 0 := hlt

theorem negative_wait_passed_unfloored_witness :
    handle_rate_limit
        (fun k => if k = 0 then Outcome.rateLimitExceeded (α := Nat) "rl" else .ok 7)
        (fun _ => -10) = ⟨2, [-5], .ok 7⟩ ∧
    ((-10 : Int) < -5 → min ((-10 : Int) + 5) 60 < 0) :=
  negative_wait_passed_unfloored
    (fun k => if k = 0 then Outcome.rateLimitExceeded (α := Nat) "rl" else .ok 7)
    (fun _ => -10) "rl" 7 rfl rfl

/-- C8 (counterexample): the response text
`"{broken\n(fenced json block with a parseable object)"` contains a fenced
code block whose content parses, yet `review_pull_request`'s extraction does
not return that parsed object — it never searches for a fenced block, falls
back to the brace substring (which is malformed), and returns the raw-text
error dictionary.  So extraction does not proceed fenced-block-first for
every free-form response. -/
theorem pull_request_extraction_skips_fenced_block :
    fencedCandidate "\x7bbroken\n```json\n\x7b\"recommendation\": \"approve\"\x7d\n```" =
      some "\x7b\"recommendation\": \"approve\"\x7d" ∧
    jsonLoadsModel "\x7b\"recommendation\": \"approve\"\x7d" =
      .ok (.obj [("recommendation", .str "approve")]) ∧
    review_pull_request_parse jsonLoadsModel
        "\x7bbroken\n```json\n\x7b\"recommendation\": \"approve\"\x7d\n```" =
      prErrorObj "\x7bbroken\n```json\n\x7b\"recommendation\": \"approve\"\x7d\n```"
        "Expecting value" ∧
    review_pull_request_parse jsonLoadsModel
        "\x7bbroken\n```json\n\x7b\"recommendation\": \"approve\"\x7d\n```" ≠
      .obj [("recommendation", .str "approve")] := by
  refine ⟨rfl, rfl, rfl, ?_⟩
  intro hcontra
  have : prErrorObj "\x7bbroken\n```json\n\x7b\"recommendation\": \"approve\"\x7d\n```"
      "Expecting value" = .obj [("recommendation", .str "approve")] := hcontra
  simp [prErrorObj] at this

/-- C8 (amended): `review_code_changes` extracts fenced-block-first, then the
brace substring, then the raw-text default (the first step that yields a
parseable object determines the value); `review_pull_request` omits the
fenced-block step and uses only the brace substring and then the raw-text
default. -/
theorem extraction_order_amended (loads : String → Except String Json)
    (text : String) :
    (∀ c d, fencedCandidate text = some c → loads c = .ok d →
      review_code_changes_parse loads text = d) ∧
    (∀ c d, fencedCandidate text = none → braceCandidate text = some c →
      loads c = .ok d → review_code_changes_parse loads text = d) ∧
    (fencedCandidate text = none → braceCandidate text = none →
      review_code_changes_parse loads text = reviewDefaultObj text) ∧
    (∀ c d, braceCandidate text = some c → loads c = .ok d →
      review_pull_request_parse loads text = d) ∧
    (braceCandidate text = none →
      review_pull_request_parse loads text = prDefaultObj text) := by
  refine ⟨?_, ?_, ?_, ?_, ?_⟩ <;> intros <;>
    simp [review_code_changes_parse, review_pull_request_parse, *]

theorem extraction_order_amended_witness :
    fencedCandidate "x ```json\n\x7b\"recommendation\": \"approve\"\x7d\n``` y" =
      some "\x7b\"recommendation\": \"approve\"\x7d" ∧
    jsonLoadsModel "\x7b\"recommendation\": \"approve\"\x7d" =
      .ok (.obj [("recommendation", .str "approve")]) ∧
    review_code_changes_parse jsonLoadsModel
        "x ```json\n\x7b\"recommendation\": \"approve\"\x7d\n``` y" =
      .obj [("recommendation", .str "approve")] :=
  ⟨rfl, rfl,
    (extraction_order_amended jsonLoadsModel
        "x ```json\n\x7b\"recommendation\": \"approve\"\x7d\n``` y").1
      "\x7b\"recommendation\": \"approve\"\x7d"
      (.obj [("recommendation", .str "approve")]) rfl rfl⟩

/-- C9: `_truncate_diff` returns a diff of length at most `max_size`
unchanged with flag false, and a longer diff as its first `max_size`
characters plus the fixed notice with flag true; the bound is
`MAX_DIFF_SIZE = 50000` for commit-message generation, code review and diff
explanation, and `MAX_PR_DIFF_SIZE = 100000` for the pull-request-level
operations. -/
theorem truncate_diff_behavior (diff : String) (maxSize : Nat) :
    (diff.length ≤ maxSize → truncate_diff diff maxSize = (diff, false)) ∧
    (maxSize < diff.length →
      truncate_diff diff maxSize = (pyTake diff maxSize ++ truncationNotice, true)) ∧
    MAX_DIFF_SIZE = 50000 ∧ MAX_PR_DIFF_SIZE = 100000 ∧
    (∀ d, generate_commit_message_truncation d = truncate_diff d 50000) ∧
    (∀ d, review_code_changes_truncation d = truncate_diff d 50000) ∧
    (∀ d, explain_diff_truncation d = truncate_diff d 50000) ∧
    (∀ d, review_pull_request_truncation d = truncate_diff d 100000) ∧
    (∀ d, generate_pr_description_truncation d = truncate_diff d 100000) := by
  refine ⟨?_, ?_, rfl, rfl, fun d => rfl, fun d => rfl, fun d => rfl,
    fun d => rfl, fun d => rfl⟩
  · intro hle
    simp [truncate_diff, hle]
  · intro hlt
    have : ¬diff.length ≤ maxSize := by omega
    simp [truncate_diff, this]

theorem truncate_diff_behavior_witness :
    ("ab".length ≤ 5 ∧ truncate_diff "ab" 5 = ("ab", false)) ∧
    (2 < "abcde".length ∧
      truncate_diff "abcde" 2 = ("ab" ++ truncationNotice, true)) :=
  ⟨⟨by decide, (truncate_diff_behavior "ab" 5).1 (by decide)⟩,
   ⟨by decide, (truncate_diff_behavior "abcde" 2).2.1 (by decide)⟩⟩

/-- C10 (counterexample): on the response text consisting of a single flat
JSON object without a `summary` field, `review_code_changes` returns the
parsed object as-is, which contains neither a `summary` nor a
`recommendation` key — so the operation does not always return a dictionary
with those keys. -/
theorem review_result_may_lack_summary_key :
    review_code_changes_parse jsonLoadsModel "\x7b\"a\": \"b\"\x7d" =
      .obj [("a", .str "b")] ∧
    (Json.obj [("a", .str "b")]).hasKey "summary" = false ∧
    (Json.obj [("a", .str "b")]).hasKey "recommendation" = false := by
  exact ⟨rfl, rfl, rfl⟩

/-- C10 (amended): the parsing stage of `review_code_changes` is total (the
source wraps it in a catch-all handler, so no parsing exception escapes), and
every run falls in one of three cases: an extracted candidate (fenced block,
or — failing that — brace substring) parses and the parsed object is
returned as-is (it need not contain any particular keys); a candidate was
extracted but parsing raised, and the returned dictionary carries the raw
text under `summary` plus `recommendation` and `error` keys; or no candidate
exists and the returned dictionary carries the raw text under `summary` plus
a `recommendation` key and no `error` key. -/
theorem review_parse_fallback_shape (loads : String → Except String Json)
    (text : String) :
    (∃ c, (fencedCandidate text = some c ∨
        (fencedCandidate text = none ∧ braceCandidate text = some c)) ∧
      loads c = .ok (review_code_changes_parse loads text)) ∨
    (∃ c e, (fencedCandidate text = some c ∨
        (fencedCandidate text = none ∧ braceCandidate text = some c)) ∧
      loads c = .error e ∧
      review_code_changes_parse loads text = reviewErrorObj text e ∧
      (reviewErrorObj text e).getKey "summary" = some (.str text) ∧
      (reviewErrorObj text e).hasKey "recommendation" = true ∧
      (reviewErrorObj text e).hasKey "error" = true) ∨
    (fencedCandidate text = none ∧ braceCandidate text = none ∧
      review_code_changes_parse loads text = reviewDefaultObj text ∧
      (reviewDefaultObj text).getKey "summary" = some (.str text) ∧
      (reviewDefaultObj text).hasKey "recommendation" = true ∧
      (reviewDefaultObj text).hasKey "error" = false) := by
  cases hf : fencedCandidate text with
  | some c =>
    cases hl : loads c with
    | ok d =>
      exact Or.inl ⟨c, Or.inl rfl, by
        simp [review_code_changes_parse, hf, hl]⟩
    | error e =>
      refine Or.inr (Or.inl ⟨c, e, Or.inl rfl, hl, ?_, rfl, rfl, rfl⟩)
      simp [review_code_changes_parse, hf, hl]
  | none =>
    cases hb : braceCandidate text with
    | some c =>
      cases hl : loads c with
      | ok d =>
        exact Or.inl ⟨c, Or.inr ⟨rfl, rfl⟩, by
          simp [review_code_changes_parse, hf, hb, hl]⟩
      | error e =>
        refine Or.inr (Or.inl ⟨c, e, Or.inr ⟨rfl, rfl⟩, hl, ?_, rfl, rfl, rfl⟩)
        simp [review_code_changes_parse, hf, hb, hl]
    | none =>
      refine Or.inr (Or.inr ⟨rfl, rfl, ?_, rfl, rfl, rfl⟩)
      simp [review_code_changes_parse, hf, hb]

end GithubAssistant
